import Mathlib

set_option autoImplicit false

/-!
Shallow embedding of the logicboxes-mcp TypeScript client library.

JSON values returned by the remote API are modelled by `Jval`; a JavaScript
object is represented by the list of its own enumerable entries, in
enumeration order (the order `Object.keys` yields).  Absent properties are
modelled by `Option.none`; JSON has no `undefined` value, so `none` always
means the property is missing.  Machine numbers are modelled by `Int`
(the values the claims touch are small integers).  Fallible operations
return `Except LBError`, mirroring thrown `LogicBoxesError` instances.
-/

/-- A JSON-like runtime value. `obj` holds the entries of a JavaScript
object in enumeration order; keys are assumed unique, as produced by
JSON parsing. -/
inductive Jval where
  | str : String → Jval
  | num : Int → Jval
  | bool : Bool → Jval
  | null : Jval
  | obj : List (String × Jval) → Jval
  | arr : List Jval → Jval
deriving Repr

/-- The own enumerable entries of a value, as returned by
`Object.entries` / iterated by `Object.keys`: an object yields its entry
list, an array yields its elements under stringified index keys, and a
primitive yields nothing. -/
def entriesOf : Jval → List (String × Jval)
  | Jval.obj l => l
  | Jval.arr l => l.enum.map (fun p => (toString p.1, p.2))
  | _ => []

/-- `typeof v === 'object' && v !== null` — true for objects and arrays. -/
def isObjLike : Jval → Bool
  | Jval.obj _ => true
  | Jval.arr _ => true
  | _ => false

/-- JavaScript truthiness of a JSON value: the empty string, zero,
`false` and `null` are falsy; objects and arrays are truthy. -/
def truthy : Jval → Bool
  | Jval.str s => s != ""
  | Jval.num n => n != 0
  | Jval.bool b => b
  | Jval.null => false
  | Jval.obj _ => true
  | Jval.arr _ => true

/-- Truthiness of a possibly-absent property (`undefined` is falsy). -/
def truthyOpt : Option Jval → Bool
  | none => false
  | some v => truthy v

mutual

/-- JavaScript `String(v)` coercion of a JSON value. Arrays stringify by
joining their elements with commas, rendering `null` holes as empty. -/
def jsString : Jval → String
  | Jval.str s => s
  | Jval.num n => toString n
  | Jval.bool b => cond b "true" "false"
  | Jval.null => "null"
  | Jval.obj _ => "[object Object]"
  | Jval.arr l => String.intercalate "," (jsStringArrElems l)

/-- Stringification of array elements for `jsString`. -/
def jsStringArrElems : List Jval → List String
  | [] => []
  | Jval.null :: rest => "" :: jsStringArrElems rest
  | v :: rest => jsString v :: jsStringArrElems rest

end

/-- Value of a run of decimal digits, `none` when the run is empty. -/
def digitsVal (cs : List Char) : Option Nat :=
  let ds := cs.takeWhile Char.isDigit
  if ds.isEmpty then none
  else some (ds.foldl (fun a c => a * 10 + (c.toNat - '0'.toNat)) 0)

/-- JavaScript `parseInt(s, 10)`: skip leading whitespace, read an
optional sign and then a leading run of decimal digits; `none` models
`NaN` (no digits). -/
def parseIntJS (s : String) : Option Int :=
  let cs := s.data.dropWhile Char.isWhitespace
  match cs with
  | '-' :: rest => (digitsVal rest).map (fun n => -(n : Int))
  | '+' :: rest => (digitsVal rest).map (fun n => (n : Int))
  | rest => (digitsVal rest).map (fun n => (n : Int))

/-- `v ?? d` — nullish coalescing on a possibly-absent property. -/
def nullishDefault (v : Option Jval) (d : Jval) : Jval :=
  match v with
  | none => d
  | some Jval.null => d
  | some w => w

/-- Whether `pat` occurs at the start of `l`. -/
def charsStartWith : List Char → List Char → Bool
  | [], _ => true
  | _ :: _, [] => false
  | p :: ps, c :: cs => p == c && charsStartWith ps cs

/-- Whether `pat` occurs somewhere inside `l`. -/
def charsContain (pat : List Char) : List Char → Bool
  | [] => pat.isEmpty
  | c :: rest => charsStartWith pat (c :: rest) || charsContain pat rest

/-- `haystack.includes(needle)` on strings. -/
def containsSub (haystack pat : String) : Bool :=
  charsContain pat.data haystack.data

/-- `'k' in obj` — whether an object has a property with the given key. -/
def hasOwnKey (l : List (String × Jval)) (k : String) : Bool :=
  l.any (fun p => p.1 == k)

/-!  ## errors.ts  -/

/-- A `LogicBoxesError` (or subclass) instance: the subclass is recorded
in `name`, as the source constructors do. -/
structure LBError where
  name : String
  message : String
  statusCode : Option Int
  apiStatus : Option Jval
  apiMessage : Option Jval
deriving Repr

/-- `new LogicBoxesError(msg)` with no options. -/
def logicBoxesError (msg : String) : LBError :=
  ⟨"LogicBoxesError", msg, none, none, none⟩

/-- `new LogicBoxesError(msg, { statusCode })`. -/
def logicBoxesErrorWithStatus (msg : String) (code : Int) : LBError :=
  ⟨"LogicBoxesError", msg, some code, none, none⟩

/-- `new ValidationError(msg)` with no options. -/
def validationError (msg : String) : LBError :=
  ⟨"ValidationError", msg, none, none, none⟩

/-- Whether an error is an instance of `LogicBoxesError` (the base class
or one of its four subclasses). -/
def isLogicBoxesError (e : LBError) : Bool :=
  e.name == "LogicBoxesError" || e.name == "AuthenticationError" ||
  e.name == "NotFoundError" || e.name == "ValidationError" || e.name == "ApiError"

/-- Whether a possibly-absent property value is the string `"ERROR"`
(models `status !== 'ERROR'` via its negation). -/
def isStrERROR : Option Jval → Bool
  | some (Jval.str "ERROR") => true
  | _ => false

/-- `createErrorFromResponse(response)` from errors.ts.  The `status` and
`message` fields are read from the response; a nullish `message` defaults
to the fixed fallback text.  Returns `none` in the one case where the
source would itself throw: calling `toLowerCase()` on a non-string
message value in the `status === 'ERROR'` branch raises a `TypeError`. -/
def createErrorFromResponse (response : List (String × Jval)) : Option LBError :=
  let statusV := response.lookup "status"
  let messageV := nullishDefault (response.lookup "message") (Jval.str "Unknown API error")
  if !isStrERROR statusV then
    some ⟨"ApiError", jsString messageV, none, statusV, some messageV⟩
  else
    match messageV with
    | Jval.str m =>
      let lower := m.toLower
      if containsSub lower "authentication" || containsSub lower "invalid credentials" then
        some ⟨"AuthenticationError", m, none, statusV, some messageV⟩
      else if containsSub lower "no entity found" || containsSub lower "not found" then
        some ⟨"NotFoundError", m, none, statusV, some messageV⟩
      else if containsSub lower "invalid" then
        some ⟨"ValidationError", m, none, statusV, some messageV⟩
      else
        some ⟨"ApiError", m, none, statusV, some messageV⟩
    | _ => none

/-!  ## client.ts  -/

def DEFAULT_BASE_URL : String := "https://httpapi.com/api/"

def DEFAULT_TIMEOUT : Int := 30000

/-- Whether a string ends with `"/"` — `base.endsWith('/')`.  A string
ends with the one-character suffix `"/"` exactly when its final
character is the slash. -/
def jsEndsWithSlash (s : String) : Bool :=
  s.data.getLast? == some '/'

/-- The trailing-slash normalization performed by the
`LogicBoxesClient` constructor on its base URL. -/
def normalizeBase (base : String) : String :=
  if jsEndsWithSlash base then base else base ++ "/"

/-- `LogicBoxesConfig`: `baseUrl` and `timeout` are optional. -/
structure LogicBoxesConfig where
  authUserId : String
  apiKey : String
  baseUrl : Option String
  timeout : Option Int
deriving Repr, DecidableEq

/-- The private fields a constructed `LogicBoxesClient` holds. -/
structure ClientState where
  authUserId : String
  apiKey : String
  baseUrl : String
  timeout : Int
deriving Repr, DecidableEq

/-- The `LogicBoxesClient` constructor: copies the credentials, applies
the `??` defaults, and ensures `baseUrl` ends with a trailing slash. -/
def mkClient (config : LogicBoxesConfig) : ClientState :=
  ⟨config.authUserId, config.apiKey,
   normalizeBase (config.baseUrl.getD DEFAULT_BASE_URL),
   config.timeout.getD DEFAULT_TIMEOUT⟩

/-- A query-parameter value of TypeScript type
`string | number | undefined`. -/
inductive ParamValue where
  | str : String → ParamValue
  | num : Int → ParamValue
  | undef : ParamValue
deriving Repr, DecidableEq

/-- `String(value)` for a defined parameter value; `none` for
`undefined` (the parameter is skipped). -/
def paramString : ParamValue → Option String
  | ParamValue.str s => some s
  | ParamValue.num n => some (toString n)
  | ParamValue.undef => none

/-- `URLSearchParams.set(k, v)`: replaces the value of the first pair
with key `k` (deleting any later pairs with that key), or appends the
pair when the key is not present. -/
def setParam : List (String × String) → String → String → List (String × String)
  | [], k, v => [(k, v)]
  | (k1, v1) :: rest, k, v =>
    if k1 = k then (k, v) :: rest.filter (fun p => p.1 ≠ k)
    else (k1, v1) :: setParam rest k v

/-- The query-parameter pairs `buildUrl` produces: the two credential
parameters are set first, then every defined caller parameter is set in
entry order.  The façade paths carry no query string of their own, so
the search-parameter list starts empty. -/
def buildUrlParams (authUserId apiKey : String)
    (params : List (String × ParamValue)) : List (String × String) :=
  let afterAuth := setParam (setParam [] "auth-userid" authUserId) "api-key" apiKey
  params.foldl (fun acc kv =>
    match paramString kv.2 with
    | none => acc
    | some s => setParam acc kv.1 s) afterAuth

/-- The data determining the URL `buildUrl` returns: the normalized base
URL, the endpoint path resolved against it, and the query pairs. -/
structure BuiltUrl where
  base : String
  path : String
  query : List (String × String)
deriving Repr, DecidableEq

/-- `LogicBoxesClient.buildUrl(path, params)`. -/
def buildUrl (c : ClientState) (path : String)
    (params : List (String × ParamValue)) : BuiltUrl :=
  ⟨c.baseUrl, path, buildUrlParams c.authUserId c.apiKey params⟩

inductive HttpMethod where
  | get : HttpMethod
  | post : HttpMethod
deriving Repr, DecidableEq

/-- The HTTP request `fetch` is invoked with: URL, method, and the
optional form-encoded body from `RequestInit`. -/
structure HttpRequest where
  url : BuiltUrl
  method : HttpMethod
  body : Option (List (String × String))
deriving Repr, DecidableEq

/-- The `RequestInit` construction inside `request()`: a form-encoded
body is attached only for POST with a non-empty `body` record, built by
`URLSearchParams.set` over its entries. -/
def mkRequest (url : BuiltUrl) (method : HttpMethod)
    (bodyRecord : Option (List (String × String))) : HttpRequest :=
  match method, bodyRecord with
  | HttpMethod.post, some b =>
    if b.length > 0 then
      ⟨url, method, some (b.foldl (fun acc kv => setParam acc kv.1 kv.2) [])⟩
    else ⟨url, method, none⟩
  | _, _ => ⟨url, method, none⟩

/-- The request issued by `LogicBoxesClient.get(path, params)`:
`request(url, 'GET')` with no body argument. -/
def clientGetRequest (c : ClientState) (path : String)
    (params : List (String × ParamValue)) : HttpRequest :=
  mkRequest (buildUrl c path params) HttpMethod.get none

/-- The request issued by `LogicBoxesClient.post(path, params)`:
`request(url, 'POST')` with no body argument. -/
def clientPostRequest (c : ClientState) (path : String)
    (params : List (String × ParamValue)) : HttpRequest :=
  mkRequest (buildUrl c path params) HttpMethod.post none

/-- The observable outcome of the single `await fetch(...)` call plus
the subsequent `response.json()`:
either a response (ok flag, status, status text, JSON body or a parse
failure message), an abort fired by the timeout, a network failure
carrying an `Error` message, or a thrown non-`Error` value. -/
inductive FetchOutcome where
  | response : Bool → Int → String → Except String Jval → FetchOutcome
  | abort : FetchOutcome
  | netErr : String → FetchOutcome
  | thrownNonError : FetchOutcome

/-- Whether the parsed body is an API-level error:
`typeof data === 'object' && data !== null && (data.status === 'ERROR'
|| data.status === 'error')`.  Property access on an array yields
`undefined`, so only objects qualify. -/
def isApiErrorBody : Jval → Bool
  | Jval.obj l =>
    (match l.lookup "status" with
     | some (Jval.str "ERROR") => true
     | some (Jval.str "error") => true
     | _ => false)
  | _ => false

/-- `LogicBoxesClient.request` applied to one fetch outcome: the
try/catch body of the source.  A thrown `LogicBoxesError` is re-thrown
unchanged; an abort becomes the timeout error; every other thrown value
is wrapped as a network error.  A `TypeError` escaping
`createErrorFromResponse` (non-string message) is likewise caught by
the generic handler. -/
def requestStep (timeout : Int) (outcome : FetchOutcome) : Except LBError Jval :=
  match outcome with
  | FetchOutcome.response ok status statusText jsonResult =>
    if !ok then
      Except.error (logicBoxesErrorWithStatus (s!"HTTP {status}: {statusText}") status)
    else
      match jsonResult with
      | Except.error parseMsg =>
        Except.error (logicBoxesError ("Network error: " ++ parseMsg))
      | Except.ok data =>
        if isApiErrorBody data then
          match data with
          | Jval.obj l =>
            (match createErrorFromResponse l with
             | some e => Except.error e
             | none =>
               Except.error (logicBoxesError
                 "Network error: message.toLowerCase is not a function"))
          | _ => Except.ok data
        else Except.ok data
  | FetchOutcome.abort =>
    Except.error (logicBoxesError (s!"Request timed out after {timeout}ms"))
  | FetchOutcome.netErr msg =>
    Except.error (logicBoxesError ("Network error: " ++ msg))
  | FetchOutcome.thrownNonError =>
    Except.error (logicBoxesError "Network error: Unknown network error")

/-- `request` over a stream of available fetch outcomes: the code
performs exactly one `fetch`, so only the first outcome is consumed. -/
def clientRequest (timeout : Int) (outcomes : Nat → FetchOutcome) : Except LBError Jval :=
  requestStep timeout (outcomes 0)

/-!  ## types.ts constants and dns.ts  -/

/-- User-facing DNS record type names. -/
inductive DnsRecordType where
  | A : DnsRecordType
  | AAAA : DnsRecordType
  | CNAME : DnsRecordType
  | MX : DnsRecordType
  | TXT : DnsRecordType
  | NS : DnsRecordType
  | SRV : DnsRecordType
  | SOA : DnsRecordType
deriving Repr, DecidableEq

/-- The string the user-facing type serializes as in query parameters
(`params.type` is sent verbatim). -/
def dnsTypeName : DnsRecordType → String
  | DnsRecordType.A => "A"
  | DnsRecordType.AAAA => "AAAA"
  | DnsRecordType.CNAME => "CNAME"
  | DnsRecordType.MX => "MX"
  | DnsRecordType.TXT => "TXT"
  | DnsRecordType.NS => "NS"
  | DnsRecordType.SRV => "SRV"
  | DnsRecordType.SOA => "SOA"

/-- `DNS_RECORD_TYPE_MAP`: user-facing type name to API URL segment. -/
def DNS_RECORD_TYPE_MAP : DnsRecordType → String
  | DnsRecordType.A => "ipv4"
  | DnsRecordType.AAAA => "ipv6"
  | DnsRecordType.CNAME => "cname"
  | DnsRecordType.MX => "mx"
  | DnsRecordType.TXT => "txt"
  | DnsRecordType.NS => "ns"
  | DnsRecordType.SRV => "srv"
  | DnsRecordType.SOA => "soa"

/-- Minimum allowed TTL value in seconds. -/
def MIN_TTL : Int := 7200

/-- `DnsApi.validateTtl(ttl)`: throws a `ValidationError` when the TTL
is below `MIN_TTL`. -/
def validateTtl (ttl : Int) : Except LBError Unit :=
  if ttl < MIN_TTL then
    Except.error (validationError (s!"TTL must be at least {MIN_TTL} seconds, got {ttl}"))
  else Except.ok ()

/-- Result of `DnsApi.parseSearchResponse`: raw record values plus the
parsed pagination counters (`none` models `NaN`). -/
structure DnsSearchResult where
  records : List Jval
  total : Option Int
  pageSize : Option Int
deriving Repr

/-- `parseInt(String(raw[k] ?? '0'), 10)` — the pagination counters. -/
def parsedCounter (raw : List (String × Jval)) (k : String) : Option Int :=
  parseIntJS (jsString (nullishDefault (raw.lookup k) (Jval.str "0")))

/-- `DnsApi.parseSearchResponse(raw)`: collects, over `Object.keys(raw)`
in order, every value that is a non-null object with a `host` property
(an array never has one), untransformed. -/
def dnsParseSearchResponse (raw : List (String × Jval)) : DnsSearchResult :=
  let records := raw.foldl (fun acc kv =>
    match kv.2 with
    | Jval.obj l => if hasOwnKey l "host" then acc ++ [Jval.obj l] else acc
    | _ => acc) []
  ⟨records, parsedCounter raw "recsindb", parsedCounter raw "recsonpage"⟩

/-- `DnsSearchParams`. -/
structure DnsSearchParams where
  domainName : String
  type : DnsRecordType
  host : Option String
  value : Option String
  noOfRecords : Option Int
  pageNo : Option Int
deriving Repr

/-- The query parameters `DnsApi.searchRecords` builds: the four base
entries in insertion order, then `host` and `value` when defined. -/
def dnsSearchQueryParams (p : DnsSearchParams) : List (String × ParamValue) :=
  let qp := [("domain-name", ParamValue.str p.domainName),
             ("type", ParamValue.str (dnsTypeName p.type)),
             ("no-of-records", ParamValue.num (p.noOfRecords.getD 50)),
             ("page-no", ParamValue.num (p.pageNo.getD 1))]
  let qp := match p.host with
    | some h => qp ++ [("host", ParamValue.str h)]
    | none => qp
  match p.value with
  | some v => qp ++ [("value", ParamValue.str v)]
  | none => qp

/-- An abstract transport: what `client.get`/`client.post` resolves (or
rejects) with for a given request.  Rejections are `LogicBoxesError`
values, as `request()` guarantees. -/
def Transport : Type := HttpRequest → Except LBError Jval

/-- `DnsApi.searchRecords(params)`: issues the GET request and parses
the response.  The cast `raw as Record<string, unknown>` is modelled by
`entriesOf`. -/
def searchRecords (c : ClientState) (server : Transport)
    (p : DnsSearchParams) : Except LBError DnsSearchResult :=
  match server (clientGetRequest c "dns/manage/search-records.json" (dnsSearchQueryParams p)) with
  | Except.error e => Except.error e
  | Except.ok data => Except.ok (dnsParseSearchResponse (entriesOf data))

/-- The catch clause of `DnsApi.searchAllRecords`: an error is skipped
(the type contributes what was already pushed) when its message marks a
no-records condition. -/
def noRecordsMessage (msg : String) : Bool :=
  containsSub msg "No records found" || containsSub msg "No Entity found" ||
  containsSub msg "not found"

/-- The record types `searchAllRecords` iterates, in order. -/
def allDnsTypes : List DnsRecordType :=
  [DnsRecordType.A, DnsRecordType.AAAA, DnsRecordType.CNAME, DnsRecordType.MX,
   DnsRecordType.TXT, DnsRecordType.NS, DnsRecordType.SRV, DnsRecordType.SOA]

/-- The per-type while-loop of `searchAllRecords`, with fuel bounding
the number of page fetches (`none` = fuel exhausted; the source loop
can iterate as long as the reported total keeps exceeding
`pageNo * 50`).  On a thrown error the catch either keeps the records
accumulated so far (no-records message) or propagates the error. -/
def searchTypePages (c : ClientState) (server : Transport) (domainName : String)
    (t : DnsRecordType) :
    Nat → Int → List Jval → Option (Except LBError (List Jval))
  | 0, _, _ => none
  | fuel + 1, pageNo, acc =>
    match searchRecords c server ⟨domainName, t, none, none, some 50, some pageNo⟩ with
    | Except.error e =>
      some (if noRecordsMessage e.message then Except.ok acc else Except.error e)
    | Except.ok result =>
      let acc2 := acc ++ result.records
      let hasMore := match result.total with
        | some n => decide (n > pageNo * 50)
        | none => false
      if hasMore then searchTypePages c server domainName t fuel (pageNo + 1) acc2
      else some (Except.ok acc2)

/-- The for-loop of `searchAllRecords` over the record types. -/
def searchAllRecordsGo (c : ClientState) (server : Transport) (domainName : String) :
    List DnsRecordType → Nat → List Jval → Option (Except LBError (List Jval))
  | [], _, acc => some (Except.ok acc)
  | t :: rest, fuel, acc =>
    match searchTypePages c server domainName t fuel 1 acc with
    | none => none
    | some (Except.error e) => some (Except.error e)
    | some (Except.ok acc2) => searchAllRecordsGo c server domainName rest fuel acc2

/-- Result of `DnsApi.searchAllRecords`. -/
structure SearchAllResult where
  records : List Jval
  total : Nat
deriving Repr

/-- `DnsApi.searchAllRecords(domainName)`: merges all record types and
returns `{ records: allRecords, total: allRecords.length }`. -/
def searchAllRecords (c : ClientState) (server : Transport) (domainName : String)
    (fuel : Nat) : Option (Except LBError SearchAllResult) :=
  match searchAllRecordsGo c server domainName allDnsTypes fuel [] with
  | none => none
  | some (Except.error e) => some (Except.error e)
  | some (Except.ok records) => some (Except.ok ⟨records, records.length⟩)

/-- `AddDnsRecordParams`. -/
structure AddDnsRecordParams where
  domainName : String
  host : String
  value : String
  ttl : Int
  priority : Option Int
  port : Option Int
  weight : Option Int
deriving Repr, DecidableEq

/-- The `ValidationError` message for a missing MX/SRV priority. -/
def priorityRequiredMsg (t : DnsRecordType) : String :=
  let typeName := dnsTypeName t
  s!"Priority is required for {typeName} records"

/-- The SRV-specific checks of `addRecord` (port and weight are
required), then the POST request. -/
def addRecordSrvStep (c : ClientState) (t : DnsRecordType) (p : AddDnsRecordParams)
    (requestParams : List (String × ParamValue)) : Except LBError HttpRequest :=
  if t = DnsRecordType.SRV then
    match p.port with
    | none => Except.error (validationError "Port is required for SRV records")
    | some port =>
      match p.weight with
      | none => Except.error (validationError "Weight is required for SRV records")
      | some weight =>
        Except.ok (clientPostRequest c
          ("dns/manage/add-" ++ DNS_RECORD_TYPE_MAP t ++ "-record.json")
          (requestParams ++ [("port", ParamValue.num port), ("weight", ParamValue.num weight)]))
  else
    Except.ok (clientPostRequest c
      ("dns/manage/add-" ++ DNS_RECORD_TYPE_MAP t ++ "-record.json") requestParams)

/-- `DnsApi.addRecord(type, params)`: SOA guard, TTL validation, base
parameters, MX/SRV priority requirement, SRV port/weight requirement,
then the POST request it would issue. -/
def addRecord (c : ClientState) (t : DnsRecordType) (p : AddDnsRecordParams) :
    Except LBError HttpRequest :=
  if t = DnsRecordType.SOA then
    Except.error (validationError
      "SOA records cannot be added; use updateSoa() to update the existing SOA record")
  else
    match validateTtl p.ttl with
    | Except.error e => Except.error e
    | Except.ok _ =>
      let requestParams : List (String × ParamValue) :=
        [("domain-name", ParamValue.str p.domainName),
         ("host", ParamValue.str p.host),
         ("value", ParamValue.str p.value),
         ("ttl", ParamValue.num p.ttl)]
      if t = DnsRecordType.MX ∨ t = DnsRecordType.SRV then
        match p.priority with
        | none => Except.error (validationError (priorityRequiredMsg t))
        | some pr =>
          addRecordSrvStep c t p (requestParams ++ [("priority", ParamValue.num pr)])
      else addRecordSrvStep c t p requestParams

/-- `UpdateDnsRecordParams`. -/
structure UpdateDnsRecordParams where
  domainName : String
  host : String
  currentValue : String
  newValue : String
  ttl : Int
  priority : Option Int
  port : Option Int
  weight : Option Int
deriving Repr, DecidableEq

/-- `DnsApi.updateRecord(type, params)`: SOA guard, TTL validation,
base parameters, then optional priority (MX/SRV) and port/weight (SRV)
entries, then the POST request it would issue. -/
def updateRecord (c : ClientState) (t : DnsRecordType) (p : UpdateDnsRecordParams) :
    Except LBError HttpRequest :=
  if t = DnsRecordType.SOA then
    Except.error (validationError
      "SOA records cannot be updated with updateRecord(); use updateSoa() instead")
  else
    match validateTtl p.ttl with
    | Except.error e => Except.error e
    | Except.ok _ =>
      let requestParams : List (String × ParamValue) :=
        [("domain-name", ParamValue.str p.domainName),
         ("host", ParamValue.str p.host),
         ("current-value", ParamValue.str p.currentValue),
         ("new-value", ParamValue.str p.newValue),
         ("ttl", ParamValue.num p.ttl)]
      let requestParams :=
        if t = DnsRecordType.MX ∨ t = DnsRecordType.SRV then
          match p.priority with
          | some pr => requestParams ++ [("priority", ParamValue.num pr)]
          | none => requestParams
        else requestParams
      let requestParams :=
        if t = DnsRecordType.SRV then
          let requestParams := match p.port with
            | some port => requestParams ++ [("port", ParamValue.num port)]
            | none => requestParams
          match p.weight with
          | some weight => requestParams ++ [("weight", ParamValue.num weight)]
          | none => requestParams
        else requestParams
      Except.ok (clientPostRequest c
        ("dns/manage/update-" ++ DNS_RECORD_TYPE_MAP t ++ "-record.json") requestParams)

/-- `UpdateSoaParams`. -/
structure UpdateSoaParams where
  domainName : String
  responsiblePerson : String
  refresh : Int
  retry : Int
  expire : Int
  ttl : Int
deriving Repr, DecidableEq

/-- `DnsApi.updateSoa(params)`: builds the parameter record and issues
the POST request directly — the source performs no validation here. -/
def updateSoa (c : ClientState) (p : UpdateSoaParams) : Except LBError HttpRequest :=
  Except.ok (clientPostRequest c "dns/manage/update-soa-record.json"
    [("domain-name", ParamValue.str p.domainName),
     ("responsible-person", ParamValue.str p.responsiblePerson),
     ("refresh", ParamValue.num p.refresh),
     ("retry", ParamValue.num p.retry),
     ("expire", ParamValue.num p.expire),
     ("ttl", ParamValue.num p.ttl)])

/-- `DeleteDnsRecordParams`. -/
structure DeleteDnsRecordParams where
  domainName : String
  host : String
  value : String
  port : Option Int
  weight : Option Int
deriving Repr, DecidableEq

/-- `DnsApi.deleteRecord(type, params)`: SOA guard, base parameters,
SRV port/weight requirement, then the POST request it would issue. -/
def deleteRecord (c : ClientState) (t : DnsRecordType) (p : DeleteDnsRecordParams) :
    Except LBError HttpRequest :=
  if t = DnsRecordType.SOA then
    Except.error (validationError "SOA records cannot be deleted")
  else
    let requestParams : List (String × ParamValue) :=
      [("domain-name", ParamValue.str p.domainName),
       ("host", ParamValue.str p.host),
       ("value", ParamValue.str p.value)]
    if t = DnsRecordType.SRV then
      match p.port with
      | none => Except.error (validationError "Port is required when deleting SRV records")
      | some port =>
        match p.weight with
        | none =>
          Except.error (validationError "Weight is required when deleting SRV records")
        | some weight =>
          Except.ok (clientPostRequest c
            ("dns/manage/delete-" ++ DNS_RECORD_TYPE_MAP t ++ "-record.json")
            (requestParams ++ [("port", ParamValue.num port), ("weight", ParamValue.num weight)]))
    else
      Except.ok (clientPostRequest c
        ("dns/manage/delete-" ++ DNS_RECORD_TYPE_MAP t ++ "-record.json") requestParams)

/-!  ## customers.ts  -/

/-- `Customer` as built by `CustomerApi.parseSearchResponse`. -/
structure Customer where
  customerid : String
  username : String
  name : String
  company : String
  city : String
  state : String
  country : String
  customerstatus : String
  totalreceipts : String
  websitecount : Option String
deriving Repr, DecidableEq

/-- `String(record[k] ?? '')`: an absent or null property stringifies to
the empty string. -/
def jsStringNullishEmpty (v : Option Jval) : String :=
  match v with
  | none => ""
  | some Jval.null => ""
  | some w => jsString w

/-- One customer entry: each field reads the dotted `customer.`-prefixed
property.  `websitecount` is kept only when the property is defined
(`!== undefined`); a null value there stringifies to `"null"`. -/
def customerFromRecord (record : List (String × Jval)) : Customer :=
  ⟨jsStringNullishEmpty (record.lookup "customer.customerid"),
   jsStringNullishEmpty (record.lookup "customer.username"),
   jsStringNullishEmpty (record.lookup "customer.name"),
   jsStringNullishEmpty (record.lookup "customer.company"),
   jsStringNullishEmpty (record.lookup "customer.city"),
   jsStringNullishEmpty (record.lookup "customer.state"),
   jsStringNullishEmpty (record.lookup "customer.country"),
   jsStringNullishEmpty (record.lookup "customer.customerstatus"),
   jsStringNullishEmpty (record.lookup "customer.totalreceipts"),
   (record.lookup "customer.websitecount").map jsString⟩

/-- Result of `CustomerApi.parseSearchResponse`. -/
structure CustomersSearchResult where
  customers : List Customer
  total : Option Int
  pageSize : Option Int
deriving Repr

/-- `CustomerApi.parseSearchResponse(raw)`: pushes one parsed customer
for every non-null object-typed value of `raw`, in key order. -/
def customersParseSearchResponse (raw : List (String × Jval)) : CustomersSearchResult :=
  let customers := raw.foldl (fun acc kv =>
    if isObjLike kv.2 then acc ++ [customerFromRecord (entriesOf kv.2)] else acc) []
  ⟨customers, parsedCounter raw "recsindb", parsedCounter raw "recsonpage"⟩

/-!  ## domains.ts  -/

/-- Everything after the first dot of `cs`, or `none` when there is no
dot (`dottedKey.indexOf('.')` is `-1`). -/
def afterFirstDot : List Char → Option (List Char)
  | [] => none
  | c :: rest => if c = '.' then some rest else afterFirstDot rest

/-- `dotIndex >= 0 ? dottedKey.slice(dotIndex + 1) : dottedKey` — strip
everything before and including the first dot. -/
def stripDotPrefix (k : String) : String :=
  match afterFirstDot k.data with
  | some rest => String.mk rest
  | none => k

/-- JavaScript property assignment `obj[k] = v` on a plain object:
replaces the value in place when the key exists, appends otherwise.
(Enumeration reordering of integer-like keys is not modelled; the
stripped keys of domain records are non-numeric.) -/
def objSet : List (String × Jval) → String → Jval → List (String × Jval)
  | [], k, v => [(k, v)]
  | (k1, v1) :: rest, k, v =>
    if k1 = k then (k, v) :: rest else (k1, v1) :: objSet rest k v

/-- The per-entry transformation of `DomainApi.parseSearchResponse`:
strip the dotted prefix from every key, then — when the result has a
truthy `description` and no truthy `domainname` — copy `description`
into `domainname`. -/
def parseDomainEntry (record : List (String × Jval)) : List (String × Jval) :=
  let domain := record.foldl (fun acc kv => objSet acc (stripDotPrefix kv.1) kv.2) []
  if truthyOpt (domain.lookup "description") && !truthyOpt (domain.lookup "domainname") then
    match domain.lookup "description" with
    | some d => objSet domain "domainname" d
    | none => domain
  else domain

/-- Result of `DomainApi.parseSearchResponse`. -/
structure DomainsSearchResult where
  domains : List (List (String × Jval))
  total : Option Int
  pageSize : Option Int
deriving Repr

/-- `DomainApi.parseSearchResponse(raw)`: applies `parseDomainEntry` to
every non-null object-typed value of `raw`, in key order. -/
def domainsParseSearchResponse (raw : List (String × Jval)) : DomainsSearchResult :=
  let domains := raw.foldl (fun acc kv =>
    if isObjLike kv.2 then acc ++ [parseDomainEntry (entriesOf kv.2)] else acc) []
  ⟨domains, parsedCounter raw "recsindb", parsedCounter raw "recsonpage"⟩

/-!  ## Spec-side definitions

These definitions follow the words of spec claims (not the source) and
exist to be compared against the source-derived functions above. -/

/-- A numbered string key: `"1"`, `"2"`, ... (a nonempty digit string). -/
def isNumberedKey (k : String) : Bool :=
  k != "" && k.data.all Char.isDigit

/-- Modelled from the claim wording of C2: the entries stored under the
numbered string keys of the response whose value is an object, flattened
in key-enumeration order. -/
def specNumberedObjectEntries (raw : List (String × Jval)) : List Jval :=
  raw.foldl (fun acc kv =>
    if isNumberedKey kv.1 && isObjLike kv.2 then acc ++ [kv.2] else acc) []

/-!  ## Shared fixtures and helper lemmas  -/

def testConfig : LogicBoxesConfig := ⟨"user123", "key456", none, none⟩

def testClient : ClientState := mkClient testConfig

def wParams : List (String × ParamValue) :=
  [("domain-name", ParamValue.str "example.com"),
   ("page-no", ParamValue.num 1),
   ("customer-id", ParamValue.undef)]

/-- Modelled from the claim wording of C5: the deterministic error-class
decision list, keyed on the response status and the lowercased message. -/
def specClassifyName (statusV : Option Jval) (m : String) : String :=
  if !isStrERROR statusV then "ApiError"
  else
    let lower := m.toLower
    if containsSub lower "authentication" || containsSub lower "invalid credentials" then
      "AuthenticationError"
    else if containsSub lower "no entity found" || containsSub lower "not found" then
      "NotFoundError"
    else if containsSub lower "invalid" then "ValidationError"
    else "ApiError"

def w5response : List (String × Jval) :=
  [("status", Jval.str "ERROR"), ("message", Jval.str "Invalid TTL value")]

def wDomainRecord : List (String × Jval) :=
  [("orders.orderid", Jval.str "42"), ("entity.description", Jval.str "example.com")]

def dnsRaw0 : List (String × Jval) := [("1", Jval.obj [("ttl", Jval.str "7200")])]

/-- Whether an error message is the TTL validation message. -/
def isTtlErrorMsg (m : String) : Bool :=
  containsSub m "TTL must be at least"

def wOutcomes : Nat → FetchOutcome := fun _ =>
  FetchOutcome.response true 200 "OK" (Except.ok (Jval.obj [("status", Jval.str "SUCCESS")]))

def recA : Jval :=
  Jval.obj [("host", Jval.str "www"), ("value", Jval.str "1.2.3.4"),
            ("ttl", Jval.str "14400"), ("type", Jval.str "A"), ("status", Jval.str "Active")]

def noRecordsError : LBError :=
  ⟨"NotFoundError", "No records found", none, some (Jval.str "ERROR"),
   some (Jval.str "No records found")⟩

/-- A transport for which the A-type search returns one record on page
one while reporting 51 records in the database, then fails with a
no-records error on page two; every other query fails with the same
no-records error. -/
def server0 : Transport := fun req =>
  match req.url.query.lookup "type", req.url.query.lookup "page-no" with
  | some "A", some "1" =>
    Except.ok (Jval.obj [("1", recA), ("recsindb", Jval.str "51"), ("recsonpage", Jval.str "1")])
  | _, _ => Except.error noRecordsError

def wAddParamsLow : AddDnsRecordParams :=
  ⟨"example.com", "www", "1.2.3.4", 3600, none, none, none⟩

def wUpdParams : UpdateDnsRecordParams :=
  ⟨"example.com", "www", "1.2.3.4", "5.6.7.8", 14400, none, none, none⟩

def wSoaParams : UpdateSoaParams :=
  ⟨"example.com", "admin.example.com", 7200, 7200, 604800, 14400⟩

def soaParamsLowTtl : UpdateSoaParams :=
  ⟨"example.com", "admin.example.com", 7200, 7200, 604800, 3600⟩

/-- Setting a key that is not yet present appends the pair. -/
theorem setParam_of_not_mem (ps : List (String × String)) (k v : String)
    (h : k ∉ ps.map Prod.fst) : setParam ps k v = ps ++ [(k, v)] := by
  induction ps with
  | nil => rfl
  | cons hd tl ih =>
    obtain ⟨k1, v1⟩ := hd
    simp only [List.map_cons, List.mem_cons] at h
    push_neg at h
    obtain ⟨h1, h2⟩ := h
    simp only [setParam, if_neg (fun hh : k1 = k => h1 hh.symm)]
    rw [ih h2]
    rfl

/-- Folding `URLSearchParams.set` over parameters whose keys are fresh
and mutually distinct appends each defined parameter in order. -/
theorem foldl_setParam_fresh (params : List (String × ParamValue)) :
    ∀ (acc : List (String × String)),
      (∀ kv ∈ params, kv.1 ∉ acc.map Prod.fst) →
      (params.map Prod.fst).Nodup →
      params.foldl (fun acc2 kv =>
        match paramString kv.2 with
        | none => acc2
        | some s => setParam acc2 kv.1 s) acc =
      acc ++ params.filterMap (fun kv => (paramString kv.2).map (fun s => (kv.1, s))) := by
  induction params with
  | nil => intro acc _ _; simp
  | cons kv rest ih =>
    intro acc hfresh hnd
    obtain ⟨k, v⟩ := kv
    simp only [List.map_cons, List.nodup_cons] at hnd
    obtain ⟨hknotin, hndrest⟩ := hnd
    cases hv : paramString v with
    | none =>
      simp only [List.foldl_cons, List.filterMap_cons, hv, Option.map_none']
      exact ih acc (fun kv2 h2 => hfresh kv2 (List.mem_cons_of_mem _ h2)) hndrest
    | some s =>
      simp only [List.foldl_cons, List.filterMap_cons, hv, Option.map_some']
      rw [setParam_of_not_mem acc k s (hfresh (k, v) (List.mem_cons_self _ _))]
      rw [ih (acc ++ [(k, s)]) ?_ hndrest]
      · simp
      · intro kv2 h2
        simp only [List.map_append, List.mem_append, List.map_cons, List.map_nil,
          List.mem_singleton, not_or]
        refine ⟨hfresh kv2 (List.mem_cons_of_mem _ h2), ?_⟩
        intro hk
        exact hknotin (hk ▸ List.mem_map_of_mem Prod.fst h2)

/-- C6 (amended): the query pairs built by `buildUrl` are exactly the two
credential parameters followed by every defined caller parameter,
stringified, in entry order — undefined parameters are omitted — provided
no caller key collides with the credential keys; the same pairs are used
by both GET and POST requests. -/
theorem buildUrl_query_spec (auth key : String) (params : List (String × ParamValue))
    (hnd : (params.map Prod.fst).Nodup)
    (hcred : ∀ kv ∈ params, kv.1 ≠ "auth-userid" ∧ kv.1 ≠ "api-key") :
    buildUrlParams auth key params =
      [("auth-userid", auth), ("api-key", key)] ++
        params.filterMap (fun kv => (paramString kv.2).map (fun s => (kv.1, s))) ∧
    (∀ (c : ClientState) (path : String),
      (clientGetRequest c path params).url.query = buildUrlParams c.authUserId c.apiKey params ∧
      (clientPostRequest c path params).url.query = buildUrlParams c.authUserId c.apiKey params) := by
  constructor
  · show params.foldl _ (setParam (setParam [] "auth-userid" auth) "api-key" key) = _
    have hbase : setParam (setParam [] "auth-userid" auth) "api-key" key =
        [("auth-userid", auth), ("api-key", key)] := rfl
    rw [hbase]
    exact foldl_setParam_fresh params [("auth-userid", auth), ("api-key", key)]
      (by
        intro kv h
        obtain ⟨h1, h2⟩ := hcred kv h
        simp [h1, h2])
      hnd
  · intro c path
    exact ⟨rfl, rfl⟩

/-- Witness for `buildUrl_query_spec` at a concrete parameter map. -/
theorem buildUrl_query_spec_witness :
    buildUrlParams "user123" "key456" wParams =
      [("auth-userid", "user123"), ("api-key", "key456")] ++
        wParams.filterMap (fun kv => (paramString kv.2).map (fun s => (kv.1, s))) ∧
    (∀ (c : ClientState) (path : String),
      (clientGetRequest c path wParams).url.query = buildUrlParams c.authUserId c.apiKey wParams ∧
      (clientPostRequest c path wParams).url.query = buildUrlParams c.authUserId c.apiKey wParams) :=
  buildUrl_query_spec "user123" "key456" wParams (by decide) (by decide)

/-- Counterexample to C6 as stated: a caller-supplied parameter named
`auth-userid` overwrites the credential, so the built query does not
contain the `auth-userid` credential pair. -/
theorem buildUrl_credential_collision :
    buildUrlParams "user123" "key456" [("auth-userid", ParamValue.str "someone-else")] =
      [("auth-userid", "someone-else"), ("api-key", "key456")] ∧
    ("auth-userid", "user123") ∉
      buildUrlParams "user123" "key456" [("auth-userid", ParamValue.str "someone-else")] := by
  refine ⟨rfl, ?_⟩
  intro h
  simp [show buildUrlParams "user123" "key456" [("auth-userid", ParamValue.str "someone-else")] =
      [("auth-userid", "someone-else"), ("api-key", "key456")] from rfl] at h

/-- Appending a slash yields a string ending in a slash. -/
theorem jsEndsWithSlash_append (b : String) : jsEndsWithSlash (b ++ "/") = true := by
  have hslash : ("/" : String).data = ['/'] := rfl
  simp [jsEndsWithSlash, String.data_append, hslash]

/-- The constructor normalization always produces a slash-terminated base. -/
theorem normalizeBase_endsWith (b : String) : jsEndsWithSlash (normalizeBase b) = true := by
  cases hb : jsEndsWithSlash b with
  | true => simp [normalizeBase, hb]
  | false => simp [normalizeBase, hb, jsEndsWithSlash_append]

/-- C10: every constructed client has a slash-terminated base URL, the
normalization is idempotent, and two configurations differing only in a
trailing slash on `baseUrl` build identical clients — hence identical
request URLs for every subsequent GET or POST call. -/
theorem client_baseUrl_normalization (cfg : LogicBoxesConfig) (a k b : String) (t : Option Int) :
    jsEndsWithSlash (mkClient cfg).baseUrl = true ∧
    normalizeBase (normalizeBase b) = normalizeBase b ∧
    (jsEndsWithSlash b = false →
      mkClient ⟨a, k, some b, t⟩ = mkClient ⟨a, k, some (b ++ "/"), t⟩ ∧
      ∀ (path : String) (params : List (String × ParamValue)),
        clientGetRequest (mkClient ⟨a, k, some b, t⟩) path params =
          clientGetRequest (mkClient ⟨a, k, some (b ++ "/"), t⟩) path params ∧
        clientPostRequest (mkClient ⟨a, k, some b, t⟩) path params =
          clientPostRequest (mkClient ⟨a, k, some (b ++ "/"), t⟩) path params) := by
  refine ⟨normalizeBase_endsWith _, ?_, ?_⟩
  · cases hb : jsEndsWithSlash b with
    | true => simp [normalizeBase, hb]
    | false => simp [normalizeBase, hb, jsEndsWithSlash_append]
  · intro hb
    have hcli : mkClient ⟨a, k, some b, t⟩ = mkClient ⟨a, k, some (b ++ "/"), t⟩ := by
      simp [mkClient, normalizeBase, hb, jsEndsWithSlash_append]
    exact ⟨hcli, fun path params => ⟨by rw [hcli], by rw [hcli]⟩⟩

/-- Witness for `client_baseUrl_normalization` at a concrete base URL
lacking the trailing slash. -/
theorem client_baseUrl_normalization_witness :
    jsEndsWithSlash (mkClient testConfig).baseUrl = true ∧
    mkClient ⟨"u", "k", some "https://test.httpapi.com/api", none⟩ =
      mkClient ⟨"u", "k", some ("https://test.httpapi.com/api" ++ "/"), none⟩ := by
  have h := client_baseUrl_normalization testConfig "u" "k" "https://test.httpapi.com/api" none
  exact ⟨h.1, (h.2.2 (by decide)).1⟩

/-- C4: for every parameter set, `addRecord` and `deleteRecord` with
record type SOA yield a thrown `ValidationError` — an `Except.error`, so
no HTTP request value is ever produced. -/
theorem soa_guard (c : ClientState) (p : AddDnsRecordParams) (q : DeleteDnsRecordParams) :
    addRecord c DnsRecordType.SOA p = Except.error (validationError
      "SOA records cannot be added; use updateSoa() to update the existing SOA record") ∧
    deleteRecord c DnsRecordType.SOA q =
      Except.error (validationError "SOA records cannot be deleted") ∧
    (validationError
      "SOA records cannot be added; use updateSoa() to update the existing SOA record").name =
      "ValidationError" ∧
    (validationError "SOA records cannot be deleted").name = "ValidationError" :=
  ⟨rfl, rfl, rfl, rfl⟩

/-- C9: `post` (like `get`) issues a request whose parameters live
entirely in the URL query pairs and whose body is `none` — the
form-encoded-body branch of `request()` is never taken from the public
interface. -/
theorem post_no_body (c : ClientState) (path : String) (params : List (String × ParamValue)) :
    clientPostRequest c path params = ⟨buildUrl c path params, HttpMethod.post, none⟩ ∧
    clientGetRequest c path params = ⟨buildUrl c path params, HttpMethod.get, none⟩ ∧
    (clientPostRequest c path params).url.query = buildUrlParams c.authUserId c.apiKey params :=
  ⟨rfl, rfl, rfl⟩

/-- C5: for every response carrying a string message,
`createErrorFromResponse` returns the error class given by the
specification decision list, carrying the response status and message. -/
theorem createErrorFromResponse_classification (response : List (String × Jval)) (m : String)
    (hm : response.lookup "message" = some (Jval.str m)) :
    createErrorFromResponse response =
      some ⟨specClassifyName (response.lookup "status") m, m, none,
            response.lookup "status", some (Jval.str m)⟩ := by
  have hmsg : nullishDefault (response.lookup "message") (Jval.str "Unknown API error") =
      Jval.str m := by rw [hm]; rfl
  simp only [createErrorFromResponse, specClassifyName, hmsg]
  cases hs : isStrERROR (response.lookup "status") with
  | false => rfl
  | true =>
    cases h1 : (containsSub m.toLower "authentication" ||
        containsSub m.toLower "invalid credentials") with
    | true => rfl
    | false =>
      cases h2 : (containsSub m.toLower "no entity found" ||
          containsSub m.toLower "not found") with
      | true => rfl
      | false =>
        cases h3 : containsSub m.toLower "invalid" with
        | true => rfl
        | false => rfl

/-- Witness for `createErrorFromResponse_classification` at a concrete
error response. -/
theorem createErrorFromResponse_classification_witness :
    createErrorFromResponse w5response =
      some ⟨specClassifyName (w5response.lookup "status") "Invalid TTL value", "Invalid TTL value",
            none, w5response.lookup "status", some (Jval.str "Invalid TTL value")⟩ :=
  createErrorFromResponse_classification w5response "Invalid TTL value" rfl

/-- A dot-free character list has no first dot. -/
theorem afterFirstDot_of_no_dot (cs : List Char) (h : '.' ∉ cs) : afterFirstDot cs = none := by
  induction cs with
  | nil => rfl
  | cons c rest ih =>
    simp only [List.mem_cons, not_or] at h
    obtain ⟨hc, hrest⟩ := h
    simp only [afterFirstDot, if_neg (fun hh : c = '.' => hc hh.symm)]
    exact ih hrest

/-- The first dot splits the list: everything after it is returned. -/
theorem afterFirstDot_append (pre post : List Char) (h : '.' ∉ pre) :
    afterFirstDot (pre ++ '.' :: post) = some post := by
  induction pre with
  | nil => simp [afterFirstDot]
  | cons c rest ih =>
    simp only [List.mem_cons, not_or] at h
    obtain ⟨hc, hrest⟩ := h
    simp only [List.cons_append, afterFirstDot, if_neg (fun hh : c = '.' => hc hh.symm)]
    exact ih hrest

/-- Assigning a key that is not yet present appends the pair. -/
theorem objSet_of_not_mem (l : List (String × Jval)) (k : String) (v : Jval)
    (h : k ∉ l.map Prod.fst) : objSet l k v = l ++ [(k, v)] := by
  induction l with
  | nil => rfl
  | cons hd tl ih =>
    obtain ⟨k1, v1⟩ := hd
    simp only [List.map_cons, List.mem_cons] at h
    push_neg at h
    obtain ⟨h1, h2⟩ := h
    simp only [objSet, if_neg (fun hh : k1 = k => h1 hh.symm)]
    rw [ih h2]
    rfl

/-- Folding property assignment over entries whose stripped keys are
fresh and mutually distinct appends each pair in order. -/
theorem foldl_objSet_fresh (record : List (String × Jval)) :
    ∀ (acc : List (String × Jval)),
      (∀ kv ∈ record, stripDotPrefix kv.1 ∉ acc.map Prod.fst) →
      ((record.map fun kv => stripDotPrefix kv.1).Nodup) →
      record.foldl (fun acc2 kv => objSet acc2 (stripDotPrefix kv.1) kv.2) acc =
        acc ++ record.map (fun kv => (stripDotPrefix kv.1, kv.2)) := by
  induction record with
  | nil => intro acc _ _; simp
  | cons kv rest ih =>
    intro acc hfresh hnd
    obtain ⟨k, v⟩ := kv
    simp only [List.map_cons, List.nodup_cons] at hnd
    obtain ⟨hknotin, hndrest⟩ := hnd
    simp only [List.foldl_cons, List.map_cons]
    rw [objSet_of_not_mem acc (stripDotPrefix k) v (hfresh (k, v) (List.mem_cons_self _ _))]
    rw [ih (acc ++ [(stripDotPrefix k, v)]) ?_ hndrest]
    · simp
    · intro kv2 h2
      simp only [List.map_append, List.mem_append, List.map_cons, List.map_nil,
        List.mem_singleton, not_or]
      refine ⟨hfresh kv2 (List.mem_cons_of_mem _ h2), ?_⟩
      intro hk
      exact hknotin (hk ▸ List.mem_map_of_mem (fun kv3 => stripDotPrefix kv3.1) h2)

/-- C1 (amended): each dotted key is replaced by its suffix after the
first dot, dot-free keys are unchanged, and — when the stripped object
has a truthy `description` and no truthy `domainname` — `description`
is copied into `domainname` (a falsy `description`, or a present falsy
`domainname`, changes the behavior relative to a pure field-presence
reading). -/
theorem parseDomainEntry_spec (record : List (String × Jval))
    (hnd : (record.map fun kv => stripDotPrefix kv.1).Nodup) :
    (∀ (pre post : List Char), '.' ∉ pre →
      stripDotPrefix (String.mk (pre ++ '.' :: post)) = String.mk post) ∧
    (∀ k : String, '.' ∉ k.data → stripDotPrefix k = k) ∧
    (parseDomainEntry record =
      (let base := record.map fun kv => (stripDotPrefix kv.1, kv.2)
       if truthyOpt (base.lookup "description") && !truthyOpt (base.lookup "domainname") then
         match base.lookup "description" with
         | some d => objSet base "domainname" d
         | none => base
       else base)) := by
  refine ⟨?_, ?_, ?_⟩
  · intro pre post hpre
    simp only [stripDotPrefix]
    rw [afterFirstDot_append pre post hpre]
  · intro k hk
    simp only [stripDotPrefix]
    rw [afterFirstDot_of_no_dot k.data hk]
  · simp only [parseDomainEntry]
    rw [foldl_objSet_fresh record [] (by simp) hnd]
    simp

/-- Witness for `parseDomainEntry_spec` at a concrete search entry. -/
theorem parseDomainEntry_spec_witness :
    (∀ (pre post : List Char), '.' ∉ pre →
      stripDotPrefix (String.mk (pre ++ '.' :: post)) = String.mk post) ∧
    (∀ k : String, '.' ∉ k.data → stripDotPrefix k = k) ∧
    (parseDomainEntry wDomainRecord =
      (let base := wDomainRecord.map fun kv => (stripDotPrefix kv.1, kv.2)
       if truthyOpt (base.lookup "description") && !truthyOpt (base.lookup "domainname") then
         match base.lookup "description" with
         | some d => objSet base "domainname" d
         | none => base
       else base)) :=
  parseDomainEntry_spec wDomainRecord (by decide)

/-- Counterexample to C1 as stated: an entry whose stripped form has a
`description` field holding the empty string (falsy) and no `domainname`
field — the claim mandates the copy, but the code tests truthiness and
leaves `domainname` absent. -/
theorem parseDomainEntry_blank_description :
    (parseDomainEntry [("entity.description", Jval.str "")]).lookup "description" =
      some (Jval.str "") ∧
    (parseDomainEntry [("entity.description", Jval.str "")]).lookup "domainname" = none :=
  ⟨rfl, rfl⟩

/-- The push-if-qualifying loop of `DnsApi.parseSearchResponse` collects
exactly the qualifying values, in order. -/
theorem dns_records_foldl (raw : List (String × Jval)) :
    ∀ (acc : List Jval),
      raw.foldl (fun acc2 kv =>
        match kv.2 with
        | Jval.obj l => if hasOwnKey l "host" then acc2 ++ [Jval.obj l] else acc2
        | _ => acc2) acc =
      acc ++ raw.filterMap (fun kv =>
        match kv.2 with
        | Jval.obj l => if hasOwnKey l "host" then some (Jval.obj l) else none
        | _ => none) := by
  induction raw with
  | nil => intro acc; simp
  | cons kv rest ih =>
    intro acc
    obtain ⟨k, v⟩ := kv
    cases v with
    | obj l =>
      cases h : hasOwnKey l "host" with
      | true => simp [h, ih, List.filterMap_cons]
      | false => simp [h, ih, List.filterMap_cons]
    | str s => simpa using ih acc
    | num n => simpa using ih acc
    | bool b => simpa using ih acc
    | null => simpa using ih acc
    | arr l => simpa using ih acc

/-- The push-if-object loop shared by the customer and domain parsers
collects one transformed entry per object-typed value, in order. -/
theorem objLike_foldl {α : Type} (h : (String × Jval) → α) (raw : List (String × Jval)) :
    ∀ (acc : List α),
      raw.foldl (fun acc2 kv => if isObjLike kv.2 then acc2 ++ [h kv] else acc2) acc =
      acc ++ (raw.filter fun kv => isObjLike kv.2).map h := by
  induction raw with
  | nil => intro acc; simp
  | cons kv rest ih =>
    intro acc
    cases hk : isObjLike kv.2 with
    | true => simp [hk, ih, List.filter_cons]
    | false => simp [hk, ih, List.filter_cons]

/-- C2 (amended): each façade search array contains, in key-enumeration
order, one element per qualifying entry of the raw response under any
key — for the DNS parser the qualifying entries are the object values
having a `host` property (kept unchanged); for the customer and domain
parsers every object-typed value qualifies and contributes its parsed
form; entries whose value is not a non-null object contribute
nothing. -/
theorem parseSearchResponse_entries (raw : List (String × Jval)) :
    (dnsParseSearchResponse raw).records =
      raw.filterMap (fun kv =>
        match kv.2 with
        | Jval.obj l => if hasOwnKey l "host" then some (Jval.obj l) else none
        | _ => none) ∧
    (customersParseSearchResponse raw).customers =
      (raw.filter fun kv => isObjLike kv.2).map
        (fun kv => customerFromRecord (entriesOf kv.2)) ∧
    (domainsParseSearchResponse raw).domains =
      (raw.filter fun kv => isObjLike kv.2).map
        (fun kv => parseDomainEntry (entriesOf kv.2)) := by
  refine ⟨?_, ?_, ?_⟩
  · show raw.foldl _ [] = _
    rw [dns_records_foldl raw []]
    rfl
  · show raw.foldl _ [] = _
    rw [objLike_foldl (fun kv => customerFromRecord (entriesOf kv.2)) raw []]
    rfl
  · show raw.foldl _ [] = _
    rw [objLike_foldl (fun kv => parseDomainEntry (entriesOf kv.2)) raw []]
    rfl

/-- Counterexample to C2 as stated: a response whose sole numbered key
holds an object without a `host` property.  The claim requires the DNS
search array to contain that entry; the parser drops it. -/
theorem dns_numbered_entry_dropped :
    (dnsParseSearchResponse dnsRaw0).records = [] ∧
    specNumberedObjectEntries dnsRaw0 = [Jval.obj [("ttl", Jval.str "7200")]] ∧
    ([] : List Jval) ≠ [Jval.obj [("ttl", Jval.str "7200")]] :=
  ⟨rfl, rfl, by simp⟩

/-- C3 (amended): `addRecord` and `updateRecord` throw a
`ValidationError` (issuing no request) whenever the TTL is below 7200,
and with TTL at least 7200 never raise the TTL error; `updateSoa`
performs no TTL validation and always issues its request. -/
theorem dns_ttl_validation (c : ClientState) (t : DnsRecordType)
    (p : AddDnsRecordParams) (q : UpdateDnsRecordParams) (s : UpdateSoaParams) :
    (p.ttl < MIN_TTL → ∃ e, addRecord c t p = Except.error e ∧ e.name = "ValidationError") ∧
    (MIN_TTL ≤ p.ttl → ∀ e, addRecord c t p = Except.error e → isTtlErrorMsg e.message = false) ∧
    (q.ttl < MIN_TTL → ∃ e, updateRecord c t q = Except.error e ∧ e.name = "ValidationError") ∧
    (MIN_TTL ≤ q.ttl → ∀ e, updateRecord c t q = Except.error e → isTtlErrorMsg e.message = false) ∧
    (updateSoa c s).isOk = true := by
  refine ⟨?_, ?_, ?_, ?_, rfl⟩
  · intro hlt
    by_cases hSOA : t = DnsRecordType.SOA
    · subst hSOA
      exact ⟨validationError
        "SOA records cannot be added; use updateSoa() to update the existing SOA record",
        rfl, rfl⟩
    · obtain ⟨e, he, hname⟩ : ∃ e, validateTtl p.ttl = Except.error e ∧
          e.name = "ValidationError" := by
        refine ⟨validationError (s!"TTL must be at least {MIN_TTL} seconds, got {p.ttl}"),
          ?_, rfl⟩
        simp [validateTtl, hlt]
      refine ⟨e, ?_, hname⟩
      simp [addRecord, hSOA, he]
  · intro hge e he
    have hv : validateTtl p.ttl = Except.ok () := by
      simp [validateTtl, not_lt.mpr hge]
    cases t with
    | SOA =>
      have hred : addRecord c DnsRecordType.SOA p = Except.error (validationError
        "SOA records cannot be added; use updateSoa() to update the existing SOA record") := rfl
      rw [hred] at he
      injection he with he2
      rw [← he2]
      decide
    | A => simp [addRecord, addRecordSrvStep, hv] at he
    | AAAA => simp [addRecord, addRecordSrvStep, hv] at he
    | CNAME => simp [addRecord, addRecordSrvStep, hv] at he
    | TXT => simp [addRecord, addRecordSrvStep, hv] at he
    | NS => simp [addRecord, addRecordSrvStep, hv] at he
    | MX =>
      cases hp : p.priority with
      | none =>
        simp [addRecord, addRecordSrvStep, hv, hp] at he
        rw [← he]
        decide
      | some pr => simp [addRecord, addRecordSrvStep, hv, hp] at he
    | SRV =>
      cases hp : p.priority with
      | none =>
        simp [addRecord, addRecordSrvStep, hv, hp] at he
        rw [← he]
        decide
      | some pr =>
        cases hport : p.port with
        | none =>
          simp [addRecord, addRecordSrvStep, hv, hp, hport] at he
          rw [← he]
          decide
        | some po =>
          cases hw : p.weight with
          | none =>
            simp [addRecord, addRecordSrvStep, hv, hp, hport, hw] at he
            rw [← he]
            decide
          | some w => simp [addRecord, addRecordSrvStep, hv, hp, hport, hw] at he
  · intro hlt
    by_cases hSOA : t = DnsRecordType.SOA
    · subst hSOA
      exact ⟨validationError
        "SOA records cannot be updated with updateRecord(); use updateSoa() instead",
        rfl, rfl⟩
    · obtain ⟨e, he, hname⟩ : ∃ e, validateTtl q.ttl = Except.error e ∧
          e.name = "ValidationError" := by
        refine ⟨validationError (s!"TTL must be at least {MIN_TTL} seconds, got {q.ttl}"),
          ?_, rfl⟩
        simp [validateTtl, hlt]
      refine ⟨e, ?_, hname⟩
      simp [updateRecord, hSOA, he]
  · intro hge e he
    have hv : validateTtl q.ttl = Except.ok () := by
      simp [validateTtl, not_lt.mpr hge]
    cases t with
    | SOA =>
      have hred : updateRecord c DnsRecordType.SOA q = Except.error (validationError
        "SOA records cannot be updated with updateRecord(); use updateSoa() instead") := rfl
      rw [hred] at he
      injection he with he2
      rw [← he2]
      decide
    | A => simp [updateRecord, hv] at he
    | AAAA => simp [updateRecord, hv] at he
    | CNAME => simp [updateRecord, hv] at he
    | TXT => simp [updateRecord, hv] at he
    | NS => simp [updateRecord, hv] at he
    | MX => simp [updateRecord, hv] at he
    | SRV => simp [updateRecord, hv] at he

/-- Every error `createErrorFromResponse` builds is a `LogicBoxesError`
subclass. -/
theorem createErrorFromResponse_isLB (l : List (String × Jval)) (e : LBError)
    (h : createErrorFromResponse l = some e) : isLogicBoxesError e = true := by
  simp only [createErrorFromResponse] at h
  split at h
  · injection h with h2
    rw [← h2]
    rfl
  · split at h
    · split at h
      · injection h with h2
        rw [← h2]
        rfl
      · split at h
        · injection h with h2
          rw [← h2]
          rfl
        · split at h
          · injection h with h2
            rw [← h2]
            rfl
          · injection h with h2
            rw [← h2]
            rfl
    · cases h

/-- C7: `request` consults exactly one fetch outcome (no retry); every
failure mode — non-ok HTTP status, API-level error body, timeout abort,
network error, thrown non-`Error` value, or JSON parse failure — yields
a thrown `LogicBoxesError` (or subclass), never any other error type;
and the parsed JSON of an ok, non-error response is returned
unchanged. -/
theorem clientRequest_spec (timeout : Int) (outcomes outcomes2 : Nat → FetchOutcome) :
    (outcomes 0 = outcomes2 0 →
      clientRequest timeout outcomes = clientRequest timeout outcomes2) ∧
    (∀ e, clientRequest timeout outcomes = Except.error e → isLogicBoxesError e = true) ∧
    (∀ data, clientRequest timeout outcomes = Except.ok data ↔
      ∃ status statusText,
        outcomes 0 = FetchOutcome.response true status statusText (Except.ok data) ∧
        isApiErrorBody data = false) := by
  refine ⟨?_, ?_, ?_⟩
  · intro h
    unfold clientRequest
    rw [h]
  · intro e he
    unfold clientRequest at he
    generalize outcomes 0 = o at he
    cases o with
    | response ok status statusText jsonResult =>
      cases ok with
      | false =>
        simp [requestStep] at he
        subst he
        rfl
      | true =>
        cases jsonResult with
        | error msg =>
          simp [requestStep] at he
          subst he
          rfl
        | ok data =>
          cases hb : isApiErrorBody data with
          | false => simp [requestStep, hb] at he
          | true =>
            cases data with
            | obj l2 =>
              cases hc : createErrorFromResponse l2 with
              | some e2 =>
                simp [requestStep, hb, hc] at he
                subst he
                exact createErrorFromResponse_isLB l2 e2 hc
              | none =>
                simp [requestStep, hb, hc] at he
                subst he
                rfl
            | str s => simp [isApiErrorBody] at hb
            | num n => simp [isApiErrorBody] at hb
            | bool b => simp [isApiErrorBody] at hb
            | null => simp [isApiErrorBody] at hb
            | arr l2 => simp [isApiErrorBody] at hb
    | abort =>
      simp [requestStep] at he
      subst he
      rfl
    | netErr msg =>
      simp [requestStep] at he
      subst he
      rfl
    | thrownNonError =>
      simp [requestStep] at he
      subst he
      rfl
  · intro data
    constructor
    · intro h
      unfold clientRequest at h
      generalize ho : outcomes 0 = o at h
      cases o with
      | response ok status statusText jsonResult =>
        cases ok with
        | false => simp [requestStep] at h
        | true =>
          cases jsonResult with
          | error msg => simp [requestStep] at h
          | ok d2 =>
            cases hb : isApiErrorBody d2 with
            | false =>
              simp [requestStep, hb] at h
              subst h
              exact ⟨status, statusText, rfl, hb⟩
            | true =>
              cases d2 with
              | obj l2 =>
                cases hc : createErrorFromResponse l2 with
                | some e2 => simp [requestStep, hb, hc] at h
                | none => simp [requestStep, hb, hc] at h
              | str s => simp [isApiErrorBody] at hb
              | num n => simp [isApiErrorBody] at hb
              | bool b => simp [isApiErrorBody] at hb
              | null => simp [isApiErrorBody] at hb
              | arr l2 => simp [isApiErrorBody] at hb
      | abort => simp [requestStep] at h
      | netErr msg => simp [requestStep] at h
      | thrownNonError => simp [requestStep] at h
    · rintro ⟨status, statusText, ho, hb⟩
      unfold clientRequest
      rw [ho]
      simp [requestStep, hb]

/-- Witness for `clientRequest_spec`: a concrete ok response passes
through unchanged. -/
theorem clientRequest_spec_witness :
    clientRequest 30000 wOutcomes = Except.ok (Jval.obj [("status", Jval.str "SUCCESS")]) :=
  ((clientRequest_spec 30000 wOutcomes wOutcomes).2.2
      (Jval.obj [("status", Jval.str "SUCCESS")])).mpr ⟨200, "OK", rfl, rfl⟩

/-- C8 (amended): every terminating `searchAllRecords` run reports
`total` equal to the number of records actually collected, regardless
of the `recsindb` counters; a record type whose first page search
throws a no-records error contributes nothing; and a type finishing
with some accumulated records hands them to the remaining types without
aborting. -/
theorem searchAllRecords_spec (c : ClientState) (server : Transport) (d : String) (fuel : Nat) :
    (∀ r, searchAllRecords c server d fuel = some (Except.ok r) →
      r.total = r.records.length) ∧
    (∀ t acc e, searchRecords c server ⟨d, t, none, none, some 50, some 1⟩ = Except.error e →
      noRecordsMessage e.message = true →
      searchTypePages c server d t (fuel + 1) 1 acc = some (Except.ok acc)) ∧
    (∀ t rest acc acc2, searchTypePages c server d t fuel 1 acc = some (Except.ok acc2) →
      searchAllRecordsGo c server d (t :: rest) fuel acc =
        searchAllRecordsGo c server d rest fuel acc2) := by
  refine ⟨?_, ?_, ?_⟩
  · intro r hr
    unfold searchAllRecords at hr
    cases hgo : searchAllRecordsGo c server d allDnsTypes fuel [] with
    | none => rw [hgo] at hr; cases hr
    | some res =>
      rw [hgo] at hr
      cases res with
      | error e => simp at hr
      | ok records =>
        simp only [Option.some.injEq, Except.ok.injEq] at hr
        rw [← hr]
  · intro t acc e hse hmsg
    simp [searchTypePages, hse, hmsg]
  · intro t rest acc acc2 hst
    simp only [searchAllRecordsGo]
    rw [hst]

/-- Witness for `searchAllRecords_spec` on the concrete transport. -/
theorem searchAllRecords_spec_witness :
    (⟨[recA], 1⟩ : SearchAllResult).total = (⟨[recA], 1⟩ : SearchAllResult).records.length :=
  (searchAllRecords_spec testClient server0 "example.com" 20).1 ⟨[recA], 1⟩ rfl

/-- Counterexample to C8 as stated: the A-type search of `server0`
throws a no-records error on page two, yet the records its first page
contributed remain in the result — the claim says such a type
contributes no records. -/
theorem searchAllRecords_partial_type_contribution :
    searchRecords testClient server0 ⟨"example.com", DnsRecordType.A, none, none, some 50, some 2⟩ =
      Except.error noRecordsError ∧
    noRecordsMessage noRecordsError.message = true ∧
    searchAllRecords testClient server0 "example.com" 20 = some (Except.ok ⟨[recA], 1⟩) ∧
    ([recA] : List Jval) ≠ [] :=
  ⟨rfl, rfl, rfl, by simp⟩

/-- Witness for `dns_ttl_validation`: an A record with TTL 3600 is
rejected with a `ValidationError`. -/
theorem dns_ttl_validation_witness :
    ∃ e, addRecord testClient DnsRecordType.A wAddParamsLow = Except.error e ∧
      e.name = "ValidationError" :=
  (dns_ttl_validation testClient DnsRecordType.A wAddParamsLow wUpdParams wSoaParams).1
    (by decide)

/-- Counterexample to C3 as stated: `updateSoa` accepts a TTL of 3600,
below the 7200 minimum, and issues its request without any
`ValidationError`. -/
theorem updateSoa_skips_ttl_validation :
    soaParamsLowTtl.ttl < MIN_TTL ∧ (updateSoa testClient soaParamsLowTtl).isOk = true :=
  ⟨by decide, rfl⟩
